import Mathlib

/-!
Shallow embedding of `pdf-to-booklet` (src/main.js, with the minimal
variant in src/unnamed/part_000) and proofs about its imposition engine.

Geometry is modelled over `ℚ` (the JS numbers involved are exact decimal
constants and the four arithmetic operations), page counts and indices
over `ℕ`.  The external pdf-lib collaborator is abstracted away: an
embedded page is identified by its source page index, an output sheet by
its size together with the list of draw calls made on it, in order.
-/

namespace Booklet

/-- Options record built by the CLI (src/main.js lines 164-174):
`--a3`, `--debug`, `--double`, `--padding <points>`. -/
structure Options where
  useA3 : Bool
  debug : Bool
  double : Bool
  padding : ℚ
deriving DecidableEq

/-- pdf-lib `PageSizes.A4 = [595.28, 841.89]` (portrait width, height). -/
def PageSizesA4 : ℚ × ℚ := (59528 / 100, 84189 / 100)

/-- pdf-lib `PageSizes.A3 = [841.89, 1190.55]` (portrait width, height). -/
def PageSizesA3 : ℚ × ℚ := (84189 / 100, 119055 / 100)

/-- `options.useA3 ? PageSizes.A3.reverse() : PageSizes.A4.reverse()`
(main.js lines 29-31): `.reverse()` on the two-element array swaps the
pair, yielding `(outputWidth, outputHeight)` in landscape. -/
def outputSize (useA3 : Bool) : ℚ × ℚ :=
  let s := if useA3 then PageSizesA3 else PageSizesA4
  (s.2, s.1)

/-- `scaleX = (outputWidth / 2 - padding * 2) / origWidth` (main.js line 38). -/
def scaleXOf (origWidth : ℚ) (options : Options) : ℚ :=
  ((outputSize options.useA3).1 / 2 - options.padding * 2) / origWidth

/-- `scaleY = options.double ? (outputHeight / 2 - padding * 2) / origHeight
: (outputHeight - padding * 2) / origHeight` (main.js lines 39-41). -/
def scaleYOf (origHeight : ℚ) (options : Options) : ℚ :=
  if options.double then
    ((outputSize options.useA3).2 / 2 - options.padding * 2) / origHeight
  else
    ((outputSize options.useA3).2 - options.padding * 2) / origHeight

/-- `scale = Math.min(scaleX, scaleY)` (main.js line 42). -/
def scaleOf (origWidth origHeight : ℚ) (options : Options) : ℚ :=
  min (scaleXOf origWidth options) (scaleYOf origHeight options)

/-- The simpler variant's horizontal term `outputWidth / (2 * origWidth)`
(src/unnamed/part_000 line 26). -/
def scaleXSimple (outputWidth origWidth : ℚ) : ℚ :=
  outputWidth / (2 * origWidth)

/-- The simpler variant's vertical term `outputHeight / origHeight`
(src/unnamed/part_000 line 27). -/
def scaleYSimple (outputHeight origHeight : ℚ) : ℚ :=
  outputHeight / origHeight

/-- `finalPageCount = Math.ceil(pageCount / 4) * 4` (main.js line 14),
on a non-negative integer page count. -/
def finalPageCount (pageCount : ℕ) : ℕ :=
  ((pageCount + 3) / 4) * 4

/-- One draw call `outputPage.drawPage(embeddedPage, {x, y, width, height})`:
the embedded source page is identified by its index. -/
structure Placement where
  pageNumber : ℕ
  x : ℚ
  y : ℚ
  width : ℚ
  height : ℚ
deriving DecidableEq

/-- `addPageToOutput(pageNumber, x, y)` (main.js lines 51-65): returns a
placement record only when `pageNumber < pageCount`, else `undefined`. -/
def addPageToOutput (pageCount : ℕ) (padding origWidth origHeight scale : ℚ)
    (pageNumber : ℕ) (x y : ℚ) : Option Placement :=
  if pageNumber < pageCount then
    some ⟨pageNumber, x + padding, y + padding, origWidth * scale, origHeight * scale⟩
  else
    none

/-- The drawing pattern applied to each slot result (main.js lines 82-98,
110-129): if the slot produced a record, draw it, and under `--double`
draw it again with `y` replaced by `outputHeight / 2 + padding`. -/
def drawSlot (double : Bool) (outputHeight padding : ℚ) :
    Option Placement → List Placement
  | none => []
  | some p =>
      if double then [p, { p with y := outputHeight / 2 + padding }] else [p]

/-- One output side (one page added to the output PDF): its sheet size,
the two `addPageToOutput` calls made for it (left slot then right slot,
each recorded as `(pageNumber, x, y)` arguments), and the draw calls
they produced. -/
structure Side where
  sheetWidth : ℚ
  sheetHeight : ℚ
  leftCall : ℕ × ℚ × ℚ
  rightCall : ℕ × ℚ × ℚ
  leftDrawn : List Placement
  rightDrawn : List Placement
deriving DecidableEq

/-- All draw calls of a side, in source order (left slot stamps then
right slot stamps). -/
def Side.placements (s : Side) : List Placement :=
  s.leftDrawn ++ s.rightDrawn

/-- Builds one output side: the left slot call passes `(leftPage, 0, 0)`
and the right slot call `(rightPage, outputWidth / 2, 0)`, exactly the
argument patterns of main.js lines 75-80 and 103-108. -/
def mkSide (pageCount : ℕ) (padding origWidth origHeight scale : ℚ)
    (outputWidth outputHeight : ℚ) (double : Bool)
    (leftPage rightPage : ℕ) : Side :=
  let left := addPageToOutput pageCount padding origWidth origHeight scale leftPage 0 0
  let right := addPageToOutput pageCount padding origWidth origHeight scale rightPage
    (outputWidth / 2) 0
  { sheetWidth := outputWidth
    sheetHeight := outputHeight
    leftCall := (leftPage, 0, 0)
    rightCall := (rightPage, outputWidth / 2, 0)
    leftDrawn := drawSlot double outputHeight padding left
    rightDrawn := drawSlot double outputHeight padding right }

/-- The loop indices of `for (let index = 0; index < bound; index += 2)`
(main.js line 71): the even naturals below `bound`, in order. -/
def loopIndices (bound : ℕ) : List ℕ :=
  (List.range bound).filter (fun i => i % 2 = 0)

/-- The imposition engine `pdfToBooklet` (main.js lines 7-139) with I/O
stripped: from the input page count, the first page's size and the
options, the ordered list of output sides.  Each loop iteration first
adds the back side (left slot = `finalPageCount - 1 - index`, right slot
= `index`) and then the front side (left slot = `index + 1`, right slot
= `finalPageCount - 2 - index`). -/
def pdfToBooklet (pageCount : ℕ) (origWidth origHeight : ℚ)
    (options : Options) : List Side :=
  let fpc := finalPageCount pageCount
  let outputWidth := (outputSize options.useA3).1
  let outputHeight := (outputSize options.useA3).2
  let padding := options.padding
  let scale := scaleOf origWidth origHeight options
  (loopIndices (fpc / 2)).flatMap (fun index =>
    [ mkSide pageCount padding origWidth origHeight scale outputWidth outputHeight
        options.double (fpc - 1 - index) index,
      mkSide pageCount padding origWidth origHeight scale outputWidth outputHeight
        options.double (index + 1) (fpc - 2 - index) ])

/-- `file.toLowerCase().endsWith('.pdf')` (main.js line 148), over the
string's characters: lower-case every character and compare the last
four with `.pdf`. -/
def endsWithPdf (file : String) : Bool :=
  let lower := file.data.map Char.toLower
  lower.drop (lower.length - 4) == ['.', 'p', 'd', 'f']

/-- `processBatch` (main.js lines 141-158) with I/O abstracted into a
per-file action `process` that either succeeds or throws.  The loop has
no try/catch: a thrown error propagates at the `await`, so no later file
is processed, and the error is only caught (and reported) at top level
(main.js lines 199-204).  Returns the files successfully processed (one
output written per each, in order) and the propagated error, if any. -/
def processBatch (process : String → Except String Unit) :
    List String → List String × Option String
  | [] => ([], none)
  | file :: rest =>
      if endsWithPdf file then
        match process file with
        | Except.ok _ =>
            let r := processBatch process rest
            (file :: r.1, r.2)
        | Except.error e => ([], some e)
      else
        processBatch process rest

/-- A sample per-file action for the batch driver: loading `bad.pdf`
throws (a corrupt input), every other file processes fine. -/
def demoProcess : String → Except String Unit := fun file =>
  if file = "bad.pdf" then Except.error "Failed to parse PDF document"
  else Except.ok ()

/-! ## Structural lemmas -/

lemma loopIndices_two_mul (m : ℕ) :
    loopIndices (2 * m) = (List.range m).map (fun k => 2 * k) := by
  induction m with
  | zero => rfl
  | succ n ih =>
      have h2 : 2 * (n + 1) = 2 * n + 1 + 1 := by ring
      have e1 : (2 * n) % 2 = 0 := by omega
      have e2 : (2 * n + 1) % 2 = 1 := by omega
      rw [h2]
      unfold loopIndices at ih ⊢
      rw [List.range_succ, List.range_succ, List.filter_append, List.filter_append, ih,
        List.range_succ, List.map_append]
      simp [e1, e2]

lemma finalPageCount_half (pageCount : ℕ) :
    finalPageCount pageCount / 2 = 2 * ((pageCount + 3) / 4) := by
  unfold finalPageCount
  omega

/-- The engine's output, re-expressed over the iteration number `k`
(so `index = 2 * k`). -/
lemma pdfToBooklet_eq (pageCount : ℕ) (origWidth origHeight : ℚ)
    (options : Options) :
    pdfToBooklet pageCount origWidth origHeight options =
      (List.range ((pageCount + 3) / 4)).flatMap (fun k =>
        [ mkSide pageCount options.padding origWidth origHeight
            (scaleOf origWidth origHeight options)
            (outputSize options.useA3).1 (outputSize options.useA3).2
            options.double (finalPageCount pageCount - 1 - 2 * k) (2 * k),
          mkSide pageCount options.padding origWidth origHeight
            (scaleOf origWidth origHeight options)
            (outputSize options.useA3).1 (outputSize options.useA3).2
            options.double (2 * k + 1) (finalPageCount pageCount - 2 - 2 * k) ]) := by
  unfold pdfToBooklet
  dsimp only
  rw [finalPageCount_half, loopIndices_two_mul, List.flatMap_map]

lemma length_flatMap_pair {α : Type} (f g : ℕ → α) (m : ℕ) :
    ((List.range m).flatMap (fun k => [f k, g k])).length = 2 * m := by
  induction m with
  | zero => rfl
  | succ n ih =>
      rw [List.range_succ, List.flatMap_append]
      simp [ih]
      omega

lemma getElem_flatMap_pair_even {α : Type} (f g : ℕ → α) (m k : ℕ) (hk : k < m) :
    ((List.range m).flatMap (fun j => [f j, g j]))[2 * k]? = some (f k) := by
  induction m with
  | zero => omega
  | succ n ih =>
      rw [List.range_succ, List.flatMap_append, List.getElem?_append]
      rcases Nat.lt_succ_iff_lt_or_eq.mp hk with h | h
      · rw [if_pos (by rw [length_flatMap_pair]; omega)]
        exact ih h
      · subst h
        rw [if_neg (by rw [length_flatMap_pair]; omega), length_flatMap_pair]
        simp

lemma getElem_flatMap_pair_odd {α : Type} (f g : ℕ → α) (m k : ℕ) (hk : k < m) :
    ((List.range m).flatMap (fun j => [f j, g j]))[2 * k + 1]? = some (g k) := by
  induction m with
  | zero => omega
  | succ n ih =>
      rw [List.range_succ, List.flatMap_append, List.getElem?_append]
      rcases Nat.lt_succ_iff_lt_or_eq.mp hk with h | h
      · rw [if_pos (by rw [length_flatMap_pair]; omega)]
        exact ih h
      · subst h
        rw [if_neg (by rw [length_flatMap_pair]; omega), length_flatMap_pair]
        have hidx : 2 * k + 1 - 2 * k = 1 := by omega
        rw [hidx]
        simp

/-- Any side of the engine's output is `mkSide` with the per-document
geometry and some pair of slot page numbers. -/
lemma mem_pdfToBooklet (pageCount : ℕ) (origWidth origHeight : ℚ)
    (options : Options) (side : Side)
    (hs : side ∈ pdfToBooklet pageCount origWidth origHeight options) :
    ∃ leftPage rightPage,
      side = mkSide pageCount options.padding origWidth origHeight
        (scaleOf origWidth origHeight options)
        (outputSize options.useA3).1 (outputSize options.useA3).2
        options.double leftPage rightPage := by
  rw [pdfToBooklet_eq] at hs
  rcases List.mem_flatMap.mp hs with ⟨k, _, hmem⟩
  rcases List.mem_pair.mp hmem with h | h
  · exact ⟨_, _, h⟩
  · exact ⟨_, _, h⟩

/-- Inverting `drawSlot`: a drawn placement comes from a populated slot,
and is the slot's record either as-is (bottom stamp) or, under
`--double`, with `y` replaced by the top-stamp height. -/
lemma drawSlot_mem {double : Bool} {outputHeight padding : ℚ}
    {o : Option Placement} {p : Placement}
    (hp : p ∈ drawSlot double outputHeight padding o) :
    ∃ q, o = some q ∧
      (p = q ∨ (double = true ∧ p = { q with y := outputHeight / 2 + padding })) := by
  cases o with
  | none => simp [drawSlot] at hp
  | some q =>
      refine ⟨q, rfl, ?_⟩
      cases hd : double with
      | false =>
          simp [drawSlot, hd] at hp
          exact Or.inl hp
      | true =>
          simp [drawSlot, hd] at hp
          rcases hp with h | h
          · exact Or.inl h
          · exact Or.inr ⟨rfl, h⟩

/-- Inverting `addPageToOutput`: a populated slot means the page index is
below the input page count, and determines every field of the record. -/
lemma addPageToOutput_eq_some {pageCount : ℕ} {padding origWidth origHeight scale : ℚ}
    {pageNumber : ℕ} {x y : ℚ} {q : Placement}
    (hq : addPageToOutput pageCount padding origWidth origHeight scale
      pageNumber x y = some q) :
    pageNumber < pageCount ∧
      q = ⟨pageNumber, x + padding, y + padding,
        origWidth * scale, origHeight * scale⟩ := by
  unfold addPageToOutput at hq
  split at hq
  case isTrue h => exact ⟨h, (Option.some_injective _ hq).symm⟩
  case isFalse h => exact absurd hq (by simp)

/-- Every draw call of a `mkSide` side: page in range, the slot's `x`,
`y` either the bottom stamp's `padding` or (under `--double`) the top
stamp's `outputHeight / 2 + padding`, size `orig * scale`. -/
lemma mem_mkSide_placements (pageCount : ℕ)
    (padding origWidth origHeight scale outputWidth outputHeight : ℚ)
    (double : Bool) (leftPage rightPage : ℕ) (p : Placement)
    (hp : p ∈ (mkSide pageCount padding origWidth origHeight scale
      outputWidth outputHeight double leftPage rightPage).placements) :
    p.pageNumber < pageCount ∧
    (p.x = padding ∨ p.x = outputWidth / 2 + padding) ∧
    (p.y = padding ∨ (double = true ∧ p.y = outputHeight / 2 + padding)) ∧
    p.width = origWidth * scale ∧ p.height = origHeight * scale := by
  simp only [mkSide, Side.placements, List.mem_append] at hp
  rcases hp with hp | hp
  · rcases drawSlot_mem hp with ⟨q, hq, hpq⟩
    rcases addPageToOutput_eq_some hq with ⟨hlt, rfl⟩
    rcases hpq with rfl | ⟨hd, rfl⟩
    · exact ⟨hlt, Or.inl (by simp), Or.inl (by simp), by simp, by simp⟩
    · exact ⟨hlt, Or.inl (by simp), Or.inr ⟨hd, by simp⟩, by simp, by simp⟩
  · rcases drawSlot_mem hp with ⟨q, hq, hpq⟩
    rcases addPageToOutput_eq_some hq with ⟨hlt, rfl⟩
    rcases hpq with rfl | ⟨hd, rfl⟩
    · exact ⟨hlt, Or.inr (by simp), Or.inl (by simp), by simp, by simp⟩
    · exact ⟨hlt, Or.inr (by simp), Or.inr ⟨hd, by simp⟩, by simp, by simp⟩

/-- Helper for left-slot draw calls: their `x` is `0 + padding`. -/
lemma mem_mkSide_leftDrawn (pageCount : ℕ)
    (padding origWidth origHeight scale outputWidth outputHeight : ℚ)
    (double : Bool) (leftPage rightPage : ℕ) (p : Placement)
    (hp : p ∈ (mkSide pageCount padding origWidth origHeight scale
      outputWidth outputHeight double leftPage rightPage).leftDrawn) :
    p.x = padding := by
  simp only [mkSide] at hp
  rcases drawSlot_mem hp with ⟨q, hq, hpq⟩
  rcases addPageToOutput_eq_some hq with ⟨_, rfl⟩
  rcases hpq with rfl | ⟨_, rfl⟩ <;> simp

/-- Helper for right-slot draw calls: their `x` is `outputWidth / 2 + padding`. -/
lemma mem_mkSide_rightDrawn (pageCount : ℕ)
    (padding origWidth origHeight scale outputWidth outputHeight : ℚ)
    (double : Bool) (leftPage rightPage : ℕ) (p : Placement)
    (hp : p ∈ (mkSide pageCount padding origWidth origHeight scale
      outputWidth outputHeight double leftPage rightPage).rightDrawn) :
    p.x = outputWidth / 2 + padding := by
  simp only [mkSide] at hp
  rcases drawSlot_mem hp with ⟨q, hq, hpq⟩
  rcases addPageToOutput_eq_some hq with ⟨_, rfl⟩
  rcases hpq with rfl | ⟨_, rfl⟩ <;> simp

/-- Each slot of a `mkSide` side draws nothing, or exactly the bottom
stamp, or (under `--double`) the bottom stamp followed by the top stamp
(same record with `y` lifted to `outputHeight / 2 + padding`). -/
lemma mkSide_slot_shape (pageCount : ℕ)
    (padding origWidth origHeight scale outputWidth outputHeight : ℚ)
    (double : Bool) (leftPage rightPage : ℕ) (stamps : List Placement)
    (hst : stamps = (mkSide pageCount padding origWidth origHeight scale
        outputWidth outputHeight double leftPage rightPage).leftDrawn ∨
      stamps = (mkSide pageCount padding origWidth origHeight scale
        outputWidth outputHeight double leftPage rightPage).rightDrawn) :
    (double = false → stamps = [] ∨ ∃ p, stamps = [p] ∧ p.y = padding) ∧
    (double = true → stamps = [] ∨ ∃ p,
      stamps = [p, { p with y := outputHeight / 2 + padding }] ∧ p.y = padding) := by
  have main : ∀ pn : ℕ, ∀ x : ℚ,
      (drawSlot double outputHeight padding (addPageToOutput pageCount padding
        origWidth origHeight scale pn x 0) = [] ∨
      ∃ q, drawSlot double outputHeight padding (addPageToOutput pageCount padding
        origWidth origHeight scale pn x 0) =
          drawSlot double outputHeight padding (some q) ∧ q.y = padding) := by
    intro pn x
    unfold addPageToOutput
    split
    · right
      exact ⟨_, rfl, by simp⟩
    · left
      rfl
  have shape : ∀ q : Placement, q.y = padding →
      (double = false → drawSlot double outputHeight padding (some q) = [] ∨
        ∃ p, drawSlot double outputHeight padding (some q) = [p] ∧ p.y = padding) ∧
      (double = true → drawSlot double outputHeight padding (some q) = [] ∨
        ∃ p, drawSlot double outputHeight padding (some q) =
          [p, { p with y := outputHeight / 2 + padding }] ∧ p.y = padding) := by
    intro q hq
    constructor
    · intro hd
      right
      exact ⟨q, by simp [drawSlot, hd], hq⟩
    · intro hd
      right
      exact ⟨q, by simp [drawSlot, hd], hq⟩
  rcases hst with rfl | rfl
  · rcases main leftPage 0 with hempty | ⟨q, hq, hqy⟩
    · constructor <;> intro _ <;> left <;> simpa [mkSide] using hempty
    · have := shape q hqy
      constructor <;> intro hd
      · simpa [mkSide, hq] using (this.1 hd)
      · simpa [mkSide, hq] using (this.2 hd)
  · rcases main rightPage (outputWidth / 2) with hempty | ⟨q, hq, hqy⟩
    · constructor <;> intro _ <;> left <;> simpa [mkSide] using hempty
    · have := shape q hqy
      constructor <;> intro hd
      · simpa [mkSide, hq] using (this.1 hd)
      · simpa [mkSide, hq] using (this.2 hd)

/-! ## Claim theorems -/

/-- Claim C1: for every pageCount ≥ 1, the engine enumerates
`index = 0, 2, 4, …` while `index < finalPageCount / 2` and for each
index emits first a back side (left slot = `finalPageCount - 1 - index`,
right slot = `index`), then a front side (left slot = `index + 1`,
right slot = `finalPageCount - 2 - index`), in exactly that order:
with `index = 2 * k`, output position `2 * k` is the back side and
position `2 * k + 1` the front side. -/
theorem claim1_enumeration (pageCount : ℕ) (origWidth origHeight : ℚ)
    (options : Options) (hpc : 1 ≤ pageCount) :
    (pdfToBooklet pageCount origWidth origHeight options).length =
      finalPageCount pageCount / 2 ∧
    ∀ k, k < finalPageCount pageCount / 4 →
      (pdfToBooklet pageCount origWidth origHeight options)[2 * k]?.map
          (fun s => (s.leftCall.1, s.rightCall.1)) =
        some (finalPageCount pageCount - 1 - 2 * k, 2 * k) ∧
      (pdfToBooklet pageCount origWidth origHeight options)[2 * k + 1]?.map
          (fun s => (s.leftCall.1, s.rightCall.1)) =
        some (2 * k + 1, finalPageCount pageCount - 2 - 2 * k) := by
  rw [pdfToBooklet_eq]
  constructor
  · rw [length_flatMap_pair, finalPageCount_half]
  · intro k hk
    have hm : k < (pageCount + 3) / 4 := by
      unfold finalPageCount at hk
      omega
    constructor
    · rw [getElem_flatMap_pair_even _ _ _ _ hm]
      simp [mkSide]
    · rw [getElem_flatMap_pair_odd _ _ _ _ hm]
      simp [mkSide]

/-- Witness for C1 at `pageCount = 5`. -/
theorem claim1_enumeration_witness :
    1 ≤ 5 ∧
    ((pdfToBooklet 5 1 1 ⟨false, false, false, 0⟩).length = finalPageCount 5 / 2 ∧
    ∀ k, k < finalPageCount 5 / 4 →
      (pdfToBooklet 5 1 1 ⟨false, false, false, 0⟩)[2 * k]?.map
          (fun s => (s.leftCall.1, s.rightCall.1)) =
        some (finalPageCount 5 - 1 - 2 * k, 2 * k) ∧
      (pdfToBooklet 5 1 1 ⟨false, false, false, 0⟩)[2 * k + 1]?.map
          (fun s => (s.leftCall.1, s.rightCall.1)) =
        some (2 * k + 1, finalPageCount 5 - 2 - 2 * k)) :=
  ⟨by norm_num, claim1_enumeration 5 1 1 ⟨false, false, false, 0⟩ (by norm_num)⟩

/-- Claim C2: for every pageCount ≥ 1, `finalPageCount = ceil(pageCount/4)*4`
is a multiple of 4, is at least `pageCount`, and exceeds it by at most 3. -/
theorem claim2_finalPageCount (pageCount : ℕ) (hpc : 1 ≤ pageCount) :
    4 ∣ finalPageCount pageCount ∧
    pageCount ≤ finalPageCount pageCount ∧
    finalPageCount pageCount - pageCount < 4 := by
  unfold finalPageCount
  omega

/-- Witness for C2 at `pageCount = 5`. -/
theorem claim2_finalPageCount_witness :
    1 ≤ 5 ∧
    (4 ∣ finalPageCount 5 ∧ 5 ≤ finalPageCount 5 ∧ finalPageCount 5 - 5 < 4) :=
  ⟨by norm_num, claim2_finalPageCount 5 (by norm_num)⟩

/-- Claim C3: for positive first-page dimensions, every draw call's size
is the page size times `min(scaleX, scaleY)` with
`scaleX = (outputWidth/2 - padding*2)/origWidth` and
`scaleY = (outputHeight/2 - padding*2)/origHeight` under `--double`,
else `(outputHeight - padding*2)/origHeight`. -/
theorem claim3_scale (pageCount : ℕ) (origWidth origHeight : ℚ)
    (options : Options) (hw : 0 < origWidth) (hh : 0 < origHeight) :
    ∀ side ∈ pdfToBooklet pageCount origWidth origHeight options,
      ∀ p ∈ side.placements,
        p.width = origWidth * min
          (((outputSize options.useA3).1 / 2 - options.padding * 2) / origWidth)
          (if options.double then
            ((outputSize options.useA3).2 / 2 - options.padding * 2) / origHeight
          else ((outputSize options.useA3).2 - options.padding * 2) / origHeight) ∧
        p.height = origHeight * min
          (((outputSize options.useA3).1 / 2 - options.padding * 2) / origWidth)
          (if options.double then
            ((outputSize options.useA3).2 / 2 - options.padding * 2) / origHeight
          else ((outputSize options.useA3).2 - options.padding * 2) / origHeight) := by
  intro side hs p hp
  rcases mem_pdfToBooklet _ _ _ _ _ hs with ⟨leftPage, rightPage, rfl⟩
  have h := mem_mkSide_placements _ _ _ _ _ _ _ _ _ _ _ hp
  refine ⟨?_, ?_⟩
  · rw [h.2.2.2.1]
    simp only [scaleOf, scaleXOf, scaleYOf]
  · rw [h.2.2.2.2]
    simp only [scaleOf, scaleXOf, scaleYOf]

/-- Witness for C3 at `pageCount = 4`, a 1×1 first page, default options. -/
theorem claim3_scale_witness :
    (0 : ℚ) < 1 ∧
    ∀ side ∈ pdfToBooklet 4 1 1 ⟨false, false, false, 0⟩,
      ∀ p ∈ side.placements,
        p.width = 1 * min
          (((outputSize false).1 / 2 - (0 : ℚ) * 2) / 1)
          (if false then ((outputSize false).2 / 2 - (0 : ℚ) * 2) / 1
          else ((outputSize false).2 - (0 : ℚ) * 2) / 1) ∧
        p.height = 1 * min
          (((outputSize false).1 / 2 - (0 : ℚ) * 2) / 1)
          (if false then ((outputSize false).2 / 2 - (0 : ℚ) * 2) / 1
          else ((outputSize false).2 - (0 : ℚ) * 2) / 1) :=
  ⟨by norm_num, claim3_scale 4 1 1 ⟨false, false, false, 0⟩ (by norm_num) (by norm_num)⟩

/-- Claim C4: no draw call references a source page index at or beyond
`pageCount`; a slot whose logical page is at or beyond `pageCount`
emits no record and draws nothing. -/
theorem claim4_no_blank_instruction (pageCount : ℕ) (origWidth origHeight : ℚ)
    (options : Options) (hpc : 1 ≤ pageCount) :
    (∀ side ∈ pdfToBooklet pageCount origWidth origHeight options,
      ∀ p ∈ side.placements, p.pageNumber < pageCount) ∧
    (∀ pageNumber : ℕ, ∀ x y : ℚ, pageCount ≤ pageNumber →
      addPageToOutput pageCount options.padding origWidth origHeight
        (scaleOf origWidth origHeight options) pageNumber x y = none ∧
      drawSlot options.double (outputSize options.useA3).2 options.padding
        (addPageToOutput pageCount options.padding origWidth origHeight
          (scaleOf origWidth origHeight options) pageNumber x y) = []) := by
  constructor
  · intro side hs p hp
    rcases mem_pdfToBooklet _ _ _ _ _ hs with ⟨leftPage, rightPage, rfl⟩
    exact (mem_mkSide_placements _ _ _ _ _ _ _ _ _ _ _ hp).1
  · intro pageNumber x y hge
    have hnone : addPageToOutput pageCount options.padding origWidth origHeight
        (scaleOf origWidth origHeight options) pageNumber x y = none := by
      unfold addPageToOutput
      rw [if_neg (by omega)]
    exact ⟨hnone, by rw [hnone]; rfl⟩

/-- Witness for C4 at `pageCount = 5`. -/
theorem claim4_no_blank_instruction_witness :
    1 ≤ 5 ∧
    ((∀ side ∈ pdfToBooklet 5 1 1 ⟨false, false, false, 0⟩,
      ∀ p ∈ side.placements, p.pageNumber < 5) ∧
    (∀ pageNumber : ℕ, ∀ x y : ℚ, 5 ≤ pageNumber →
      addPageToOutput 5 (0 : ℚ) 1 1 (scaleOf 1 1 ⟨false, false, false, 0⟩)
        pageNumber x y = none ∧
      drawSlot false (outputSize false).2 (0 : ℚ)
        (addPageToOutput 5 (0 : ℚ) 1 1 (scaleOf 1 1 ⟨false, false, false, 0⟩)
          pageNumber x y) = [])) :=
  ⟨by norm_num, claim4_no_blank_instruction 5 1 1 ⟨false, false, false, 0⟩ (by norm_num)⟩

/-- Claim C5: every draw call sits at `y = padding` (bottom stamp) —
or, under `--double`, at `y = outputHeight/2 + padding` (top stamp) —
with `x = padding` in the left slot and `x = outputWidth/2 + padding`
in the right slot, and size `orig * scale`; under `--double` every
non-empty slot draws exactly 2 stamps, identical except for `y`, the
second at `y = outputHeight/2 + padding`, else exactly 1. -/
theorem claim5_placement_geometry (pageCount : ℕ) (origWidth origHeight : ℚ)
    (options : Options) :
    ∀ side ∈ pdfToBooklet pageCount origWidth origHeight options,
      (∀ p ∈ side.leftDrawn, p.x = options.padding) ∧
      (∀ p ∈ side.rightDrawn, p.x = (outputSize options.useA3).1 / 2 + options.padding) ∧
      (∀ p ∈ side.placements,
        p.width = origWidth * scaleOf origWidth origHeight options ∧
        p.height = origHeight * scaleOf origWidth origHeight options) ∧
      (∀ stamps : List Placement,
        stamps = side.leftDrawn ∨ stamps = side.rightDrawn →
        (options.double = false →
          stamps = [] ∨ ∃ p, stamps = [p] ∧ p.y = options.padding) ∧
        (options.double = true →
          stamps = [] ∨ ∃ p, stamps =
            [p, { p with y := (outputSize options.useA3).2 / 2 + options.padding }] ∧
            p.y = options.padding)) := by
  intro side hs
  rcases mem_pdfToBooklet _ _ _ _ _ hs with ⟨leftPage, rightPage, rfl⟩
  refine ⟨?_, ?_, ?_, ?_⟩
  · intro p hp
    exact mem_mkSide_leftDrawn _ _ _ _ _ _ _ _ _ _ _ hp
  · intro p hp
    exact mem_mkSide_rightDrawn _ _ _ _ _ _ _ _ _ _ _ hp
  · intro p hp
    have h := mem_mkSide_placements _ _ _ _ _ _ _ _ _ _ _ hp
    exact ⟨h.2.2.2.1, h.2.2.2.2⟩
  · intro stamps hst
    exact mkSide_slot_shape _ _ _ _ _ _ _ _ _ _ _ hst

/-- The first output side of a sample run: `pageCount = 4`, 1×1 page,
`--double`, padding 2 (the back side of sheet 0). -/
def sampleBackSide : Side :=
  mkSide 4 2 1 1 (scaleOf 1 1 ⟨false, false, true, 2⟩)
    (outputSize false).1 (outputSize false).2 true
    (finalPageCount 4 - 1 - 2 * 0) (2 * 0)

/-- Witness for C5 on the first side of the sample run. -/
theorem claim5_placement_geometry_witness :
    (∀ p ∈ sampleBackSide.leftDrawn, p.x = 2) ∧
    (∀ p ∈ sampleBackSide.rightDrawn, p.x = (outputSize false).1 / 2 + 2) ∧
    (∀ p ∈ sampleBackSide.placements,
      p.width = 1 * scaleOf 1 1 ⟨false, false, true, 2⟩ ∧
      p.height = 1 * scaleOf 1 1 ⟨false, false, true, 2⟩) ∧
    (∀ stamps : List Placement,
      stamps = sampleBackSide.leftDrawn ∨ stamps = sampleBackSide.rightDrawn →
      (true = false → stamps = [] ∨ ∃ p, stamps = [p] ∧ p.y = 2) ∧
      (true = true → stamps = [] ∨ ∃ p, stamps =
        [p, { p with y := (outputSize false).2 / 2 + 2 }] ∧ p.y = 2)) :=
  claim5_placement_geometry 4 1 1 ⟨false, false, true, 2⟩ sampleBackSide
    (by
      rw [pdfToBooklet_eq]
      exact List.mem_flatMap.mpr
        ⟨0, List.mem_range.mpr (by norm_num), List.mem_cons_self _ _⟩)

/-- Claim C10: for every pageCount ≥ 1 and every configuration the
output has exactly `finalPageCount / 2 = 2 * ceil(pageCount/4)` sides,
each with the configured sheet size, and the option flags never change
how many sides exist. -/
theorem claim10_side_count (pageCount : ℕ) (origWidth origHeight : ℚ)
    (options : Options) (hpc : 1 ≤ pageCount) :
    (pdfToBooklet pageCount origWidth origHeight options).length =
      finalPageCount pageCount / 2 ∧
    (pdfToBooklet pageCount origWidth origHeight options).length =
      2 * ((pageCount + 3) / 4) ∧
    (∀ side ∈ pdfToBooklet pageCount origWidth origHeight options,
      side.sheetWidth = (outputSize options.useA3).1 ∧
      side.sheetHeight = (outputSize options.useA3).2) ∧
    (∀ options2 : Options,
      (pdfToBooklet pageCount origWidth origHeight options2).length =
        (pdfToBooklet pageCount origWidth origHeight options).length) := by
  have hlen : ∀ o : Options,
      (pdfToBooklet pageCount origWidth origHeight o).length =
        2 * ((pageCount + 3) / 4) := by
    intro o
    rw [pdfToBooklet_eq, length_flatMap_pair]
  refine ⟨?_, hlen options, ?_, ?_⟩
  · rw [hlen options, finalPageCount_half]
  · intro side hs
    rcases mem_pdfToBooklet _ _ _ _ _ hs with ⟨leftPage, rightPage, rfl⟩
    exact ⟨by simp [mkSide], by simp [mkSide]⟩
  · intro options2
    rw [hlen options, hlen options2]

/-- A side whose right slot holds an in-range page draws something. -/
lemma mkSide_placements_ne_nil (pageCount : ℕ)
    (padding origWidth origHeight scale outputWidth outputHeight : ℚ)
    (double : Bool) (leftPage rightPage : ℕ) (hrp : rightPage < pageCount) :
    (mkSide pageCount padding origWidth origHeight scale
      outputWidth outputHeight double leftPage rightPage).placements ≠ [] := by
  have hsome : addPageToOutput pageCount padding origWidth origHeight scale
      rightPage (outputWidth / 2) 0 = some ⟨rightPage, outputWidth / 2 + padding,
        0 + padding, origWidth * scale, origHeight * scale⟩ := by
    unfold addPageToOutput
    rw [if_pos hrp]
  have hdraw : ∀ q : Placement, drawSlot double outputHeight padding (some q) ≠ [] := by
    intro q
    cases hd : double <;> simp [drawSlot, hd]
  intro hcontra
  simp only [mkSide, Side.placements] at hcontra
  rcases List.append_eq_nil.mp hcontra with ⟨_, hr⟩
  rw [hsome] at hr
  exact hdraw _ hr

/-- Claim C6 counterexample: in batch mode with one corrupt file
(`bad.pdf`) between two valid ones, the program writes only the output
for `a.pdf` and aborts: `c.pdf` is never processed, because the loop in
`processBatch` has no per-file error handling, so the rejection at the
`await` propagates out of the loop to the top-level catch. The claim's
expected outcome — both `a.pdf` and `c.pdf` written — is false. -/
theorem claim6_counterexample :
    processBatch demoProcess ["a.pdf", "bad.pdf", "c.pdf"] =
      (["a.pdf"], some "Failed to parse PDF document") := by
  decide

/-- Claim C6 amended: a failure while processing one document ABORTS the
batch. All `.pdf` files before the failing one are processed and their
outputs written, the error propagates (it is caught and reported only at
top level), and no later file is processed. -/
theorem claim6_amended_abort (process : String → Except String Unit)
    (pre post : List String) (file e : String)
    (hpdf : endsWithPdf file = true)
    (hfail : process file = Except.error e)
    (hok : ∀ g ∈ pre, process g = Except.ok ()) :
    processBatch process (pre ++ file :: post) =
      (pre.filter endsWithPdf, some e) := by
  induction pre with
  | nil => simp [processBatch, hpdf, hfail]
  | cons g rest ih =>
      have hokr : ∀ g2 ∈ rest, process g2 = Except.ok () :=
        fun g2 hg2 => hok g2 (List.mem_cons_of_mem _ hg2)
      have hg : process g = Except.ok () := hok g (List.mem_cons_self _ _)
      by_cases hgp : endsWithPdf g
      · simp [processBatch, List.cons_append, hgp, hg, ih hokr, List.filter_cons]
      · simp [processBatch, List.cons_append, hgp, ih hokr, List.filter_cons]

/-- Witness for the amended C6 on a concrete three-file batch. -/
theorem claim6_amended_abort_witness :
    endsWithPdf "bad.pdf" = true ∧
    demoProcess "bad.pdf" = Except.error "Failed to parse PDF document" ∧
    processBatch demoProcess (["x.pdf"] ++ "bad.pdf" :: ["z.pdf"]) =
      (List.filter endsWithPdf ["x.pdf"], some "Failed to parse PDF document") :=
  ⟨by decide, rfl,
    claim6_amended_abort demoProcess ["x.pdf"] ["z.pdf"] "bad.pdf"
      "Failed to parse PDF document" (by decide) rfl
      (by intro g hg; simp only [List.mem_singleton] at hg; subst hg; rfl)⟩

/-- Claim C7 counterexample: at `pageCount = 1` with a degenerate
(negative) first-page size the engine does not fail fast: it still emits
2 output sides and 1 placement instruction. There is no validation of
`pageCount` or of the page dimensions anywhere in `pdfToBooklet`. -/
theorem claim7_counterexample :
    (pdfToBooklet 1 (-1) (-1) ⟨false, false, false, 0⟩).length = 2 ∧
    ((pdfToBooklet 1 (-1) (-1)
      ⟨false, false, false, 0⟩).flatMap Side.placements).length = 1 := by
  constructor <;> rfl

/-- Claim C7 amended: the engine performs no precondition checks at all.
For every pageCount ≥ 1 and arbitrary dimensions — including
non-positive ones — it emits the full `finalPageCount / 2` output sides
and at least one placement instruction, silently flowing degenerate
geometry through, rather than failing with a descriptive error.
(With pageCount = 0 the real program only fails accidentally, inside the
external pdf-lib `getPage(0)` lookup, not via an engine check.) -/
theorem claim7_amended_no_validation (pageCount : ℕ) (origWidth origHeight : ℚ)
    (options : Options) (hpc : 1 ≤ pageCount) :
    (pdfToBooklet pageCount origWidth origHeight options).length =
      finalPageCount pageCount / 2 ∧
    (pdfToBooklet pageCount origWidth origHeight options).flatMap
      Side.placements ≠ [] := by
  constructor
  · rw [pdfToBooklet_eq, length_flatMap_pair, finalPageCount_half]
  · intro hnil
    rw [List.flatMap_eq_nil_iff] at hnil
    have hmem : (mkSide pageCount options.padding origWidth origHeight
        (scaleOf origWidth origHeight options) (outputSize options.useA3).1
        (outputSize options.useA3).2 options.double
        (finalPageCount pageCount - 1 - 2 * 0) (2 * 0)) ∈
        pdfToBooklet pageCount origWidth origHeight options := by
      rw [pdfToBooklet_eq]
      exact List.mem_flatMap.mpr
        ⟨0, List.mem_range.mpr (by omega), List.mem_cons_self _ _⟩
    exact absurd (hnil _ hmem)
      (mkSide_placements_ne_nil _ _ _ _ _ _ _ _ _ _ (by omega))

/-- Witness for the amended C7 at a degenerate input (negative page
size, `--a3 --double`, padding 1). -/
theorem claim7_amended_witness :
    1 ≤ 3 ∧
    ((pdfToBooklet 3 (-2) (-5) ⟨true, false, true, 1⟩).length =
      finalPageCount 3 / 2 ∧
    (pdfToBooklet 3 (-2) (-5) ⟨true, false, true, 1⟩).flatMap
      Side.placements ≠ []) :=
  ⟨by norm_num,
    claim7_amended_no_validation 3 (-2) (-5) ⟨true, false, true, 1⟩ (by norm_num)⟩

/-- Claim C8 counterexample: `padding = 250` is non-negative and smaller
than half of either A4-landscape sheet dimension (420.945 and 297.64),
yet on a 100×100 page the computed scale is negative, because `scaleX`
subtracts `padding * 2` from `outputWidth / 2` — positivity needs
padding below a QUARTER of the sheet width, not half. -/
theorem claim8_counterexample :
    (0 : ℚ) ≤ 250 ∧ 250 < (outputSize false).1 / 2 ∧
    250 < (outputSize false).2 / 2 ∧
    scaleOf 100 100 ⟨false, false, false, 250⟩ < 0 := by
  have hx : scaleXOf 100 ⟨false, false, false, 250⟩ < 0 := by
    norm_num [scaleXOf, outputSize, PageSizesA4]
  refine ⟨by norm_num, ?_, ?_, ?_⟩
  · norm_num [outputSize, PageSizesA4]
  · norm_num [outputSize, PageSizesA4]
  · unfold scaleOf
    exact lt_of_le_of_lt (min_le_left _ _) hx

/-- Claim C8 amended: for positive page dimensions the scale is strictly
positive whenever `padding * 2` is below `outputWidth / 2` and below the
vertical budget (`outputHeight / 2` under `--double`, else
`outputHeight`); the computation is a pure function, so identical inputs
give the identical scale. -/
theorem claim8_amended_scale_pos (origWidth origHeight : ℚ) (options : Options)
    (hw : 0 < origWidth) (hh : 0 < origHeight)
    (hpx : options.padding * 2 < (outputSize options.useA3).1 / 2)
    (hpy : options.padding * 2 <
      (if options.double then (outputSize options.useA3).2 / 2
       else (outputSize options.useA3).2)) :
    0 < scaleOf origWidth origHeight options ∧
    ∀ w2 h2 : ℚ, ∀ o2 : Options,
      w2 = origWidth → h2 = origHeight → o2 = options →
      scaleOf w2 h2 o2 = scaleOf origWidth origHeight options := by
  constructor
  · unfold scaleOf
    refine lt_min ?_ ?_
    · unfold scaleXOf
      exact div_pos (by linarith) hw
    · unfold scaleYOf
      split
      case isTrue h =>
        rw [if_pos h] at hpy
        exact div_pos (by linarith) hh
      case isFalse h =>
        rw [if_neg h] at hpy
        exact div_pos (by linarith) hh
  · intro w2 h2 o2 hw2 hh2 ho2
    rw [hw2, hh2, ho2]

/-- Witness for the amended C8 on a 100×100 page with padding 10. -/
theorem claim8_amended_witness :
    (0 : ℚ) < 100 ∧
    (10 : ℚ) * 2 < (outputSize false).1 / 2 ∧
    (10 : ℚ) * 2 < (if false then (outputSize false).2 / 2 else (outputSize false).2) ∧
    (0 < scaleOf 100 100 ⟨false, false, false, 10⟩ ∧
    ∀ w2 h2 : ℚ, ∀ o2 : Options,
      w2 = 100 → h2 = 100 → o2 = ⟨false, false, false, 10⟩ →
      scaleOf w2 h2 o2 = scaleOf 100 100 ⟨false, false, false, 10⟩) :=
  ⟨by norm_num, by norm_num [outputSize, PageSizesA4],
    by norm_num [outputSize, PageSizesA4],
    claim8_amended_scale_pos 100 100 ⟨false, false, false, 10⟩
      (by norm_num) (by norm_num)
      (by norm_num [outputSize, PageSizesA4])
      (by norm_num [outputSize, PageSizesA4])⟩

/-- Claim C9 counterexample: at `padding = 0` with `doublePrint` FALSE
the padding-aware vertical term DOES equal the simpler variant's
`outputHeight / origHeight` (here on a page of height 100, A4 sheet) —
contradicting the claimed discrepancy. -/
theorem claim9_counterexample :
    scaleYOf 100 ⟨false, false, false, 0⟩ = scaleYSimple (outputSize false).2 100 := by
  norm_num [scaleYOf, scaleYSimple]

/-- Claim C9 amended: at `padding = 0` the padding-aware horizontal term
equals the simpler variant's `outputWidth / (2 * origWidth)` and, when
`doublePrint` is false, the vertical term also reduces to the simpler
`outputHeight / origHeight`; the vertical terms genuinely differ only
when `doublePrint` is true (for any nonzero page height). -/
theorem claim9_amended_reduction (origWidth origHeight : ℚ) (useA3 dbg : Bool)
    (hh : origHeight ≠ 0) :
    scaleXOf origWidth ⟨useA3, dbg, false, 0⟩ =
      scaleXSimple (outputSize useA3).1 origWidth ∧
    scaleYOf origHeight ⟨useA3, dbg, false, 0⟩ =
      scaleYSimple (outputSize useA3).2 origHeight ∧
    scaleYOf origHeight ⟨useA3, dbg, true, 0⟩ ≠
      scaleYSimple (outputSize useA3).2 origHeight := by
  refine ⟨?_, ?_, ?_⟩
  · simp [scaleXOf, scaleXSimple, div_div]
  · simp [scaleYOf, scaleYSimple]
  · intro heq
    simp only [scaleYOf, scaleYSimple, if_pos] at heq
    cases useA3 <;>
    · simp only [outputSize, PageSizesA4, PageSizesA3] at heq
      field_simp at heq
      exact hh heq

/-- Witness for the amended C9 on a 50×100 page. -/
theorem claim9_amended_witness :
    (100 : ℚ) ≠ 0 ∧
    (scaleXOf 50 ⟨false, false, false, 0⟩ = scaleXSimple (outputSize false).1 50 ∧
    scaleYOf 100 ⟨false, false, false, 0⟩ = scaleYSimple (outputSize false).2 100 ∧
    scaleYOf 100 ⟨false, false, true, 0⟩ ≠ scaleYSimple (outputSize false).2 100) :=
  ⟨by norm_num, claim9_amended_reduction 50 100 false false (by norm_num)⟩

/-- Witness for C10 at `pageCount = 5`. -/
theorem claim10_side_count_witness :
    1 ≤ 5 ∧
    ((pdfToBooklet 5 1 1 ⟨false, false, false, 0⟩).length = finalPageCount 5 / 2 ∧
    (pdfToBooklet 5 1 1 ⟨false, false, false, 0⟩).length = 2 * ((5 + 3) / 4) ∧
    (∀ side ∈ pdfToBooklet 5 1 1 ⟨false, false, false, 0⟩,
      side.sheetWidth = (outputSize false).1 ∧
      side.sheetHeight = (outputSize false).2) ∧
    (∀ options2 : Options,
      (pdfToBooklet 5 1 1 options2).length =
        (pdfToBooklet 5 1 1 ⟨false, false, false, 0⟩).length)) :=
  ⟨by norm_num, claim10_side_count 5 1 1 ⟨false, false, false, 0⟩ (by norm_num)⟩

end Booklet
